import Mathlib

/-
Verification of the file-operations module of the week3-nodejs-async-patterns
repository. The module is embedded shallowly: the filesystem is an association
list from filename to content, each operation is a pure function of the
filesystem state(s) it observes, and the three implementation variants
(callback, promise, async) are embedded separately where their code differs.
Wall-clock timestamp fields (created, modified, timestamp) of the JS result
objects are outside the embedding: no claim concerns their values.
-/

/-- Number of UTF-16 code units of a character: JS String.prototype.length
counts these. Characters above the basic multilingual plane take two. -/
def utf16Units (c : Char) : Nat :=
  if c.toNat < 65536 then 1 else 2

/-- Length of a string as JavaScript computes it: total UTF-16 code units. -/
def jsLength (s : String) : Nat :=
  (s.data.map utf16Units).sum

/-- Number of bytes of the UTF-8 encoding of a character. -/
def charUtf8Size (c : Char) : Nat :=
  if c.toNat < 128 then 1
  else if c.toNat < 2048 then 2
  else if c.toNat < 65536 then 3
  else 4

/-- Byte length of the UTF-8 encoding of a string. Files are written with
encoding utf8, so the on-disk size reported by fs.stat is this. -/
def utf8Len (s : String) : Nat :=
  (s.data.map charUtf8Size).sum

/-- Size reported by fs.stat for a file whose stored content is the given
string (the file was written with encoding utf8). -/
def statSize (content : String) : Nat := utf8Len content

/-- Embeds path.join(baseDir, filename) for a separator-free filename:
the resolved path is the base directory plus one component. -/
def pathJoin (a b : String) : String := a ++ "/" ++ b

/-- Boolean test that the first list is a prefix of the second. -/
def listPrefixTest : List Char → List Char → Bool
  | [], _ => true
  | _ :: _, [] => false
  | a :: xs, b :: ys => a == b && listPrefixTest xs ys

/-- Boolean test that the pattern occurs as a contiguous sublist of the
text, scanning every suffix. -/
def listSubTest (pat : List Char) : List Char → Bool
  | [] => listPrefixTest pat []
  | b :: ys => listPrefixTest pat (b :: ys) || listSubTest pat ys

/-- Embeds JavaScript String.prototype.includes(sub): substring test. -/
def jsIncludes (s sub : String) : Bool := listSubTest sub.data s.data

/-- Embeds JavaScript String.prototype.startsWith(p). -/
def jsStartsWith (s p : String) : Bool := listPrefixTest p.data s.data

/-- Membership in the character class [a-zA-Z0-9-_.] of the validator
regex, by code point. -/
def isFilenameChar (c : Char) : Bool :=
  (decide (97 ≤ c.toNat) && decide (c.toNat ≤ 122)) ||
  (decide (65 ≤ c.toNat) && decide (c.toNat ≤ 90)) ||
  (decide (48 ≤ c.toNat) && decide (c.toNat ≤ 57)) ||
  c == '-' || c == '_' || c == '.'

/-- Embeds the regex test of the validator: at least one character, and
every character is in the class [a-zA-Z0-9-_.]. -/
def regexTest (s : String) : Bool :=
  !s.data.isEmpty && s.data.all isFilenameChar

/-- Embeds isValidFilename, identical in FileManager (fileManager.js lines
141-151) and in the three classes of week3_async_patterns_evolution.js:
regex test, JS length between 1 and 255, no ".." substring, no leading ".",
no "/" and no backslash. -/
def isValidFilename (filename : String) : Bool :=
  regexTest filename &&
  decide (0 < jsLength filename) &&
  decide (jsLength filename ≤ 255) &&
  !(jsIncludes filename "..") &&
  !(jsStartsWith filename ".") &&
  !(jsIncludes filename "/") &&
  !(jsIncludes filename "\\")

/-- Filesystem state: the base directory as an association list from
filename to file content, in enumeration (readdir) order. -/
abbrev FS := List (String × String)

/-- Lookup of a file by name (fs.access / fs.readFile succeed iff some). -/
def fsLookup : FS → String → Option String
  | [], _ => none
  | (m, c) :: rest, n => if m = n then some c else fsLookup rest n

/-- Effect of fs.writeFile: replace the content in place if the name
exists, otherwise append a new entry. -/
def fsWrite : FS → String → String → FS
  | [], n, c => [(n, c)]
  | (m, d) :: rest, n, c =>
    if m = n then (n, c) :: rest else (m, d) :: fsWrite rest n c

/-- Effect of fs.unlink: remove the entry of the given name. -/
def fsErase : FS → String → FS
  | [], _ => []
  | (m, d) :: rest, n =>
    if m = n then fsErase rest n else (m, d) :: fsErase rest n

/-- Failure kinds of the module. The first three are the typed errors the
code constructs; rawFs is an underlying filesystem error propagated to the
caller without conversion, carrying its code string. -/
inductive FMError
  | invalidName
  | alreadyExists
  | notFound
  | rawFs (code : String)
deriving DecidableEq

/-- Outcome of an operation: a success value or a failure kind. -/
inductive FMResult (α : Type)
  | ok (value : α)
  | err (e : FMError)
deriving DecidableEq

/-- Success result of createFile: filename, resolved path, reported size
(the code reports content.length, its JS string length). -/
structure CreateResult where
  filename : String
  path : String
  size : Nat
deriving DecidableEq

/-- Success result of readFile: filename, content, size from fs.stat. -/
structure ReadResult where
  filename : String
  content : String
  size : Nat
deriving DecidableEq

/-- Success result of deleteFile. -/
structure DeleteResult where
  filename : String
  deleted : Bool
deriving DecidableEq

/-- One entry of the listFiles result: filename and size from fs.stat. -/
structure FileEntry where
  filename : String
  size : Nat
deriving DecidableEq

/-- Result entry built from one directory entry. -/
def mkEntry (e : String × String) : FileEntry := ⟨e.1, statSize e.2⟩

/-- Filesystem calls an operation can perform, recorded as a trace. -/
inductive FsOp
  | access (p : String)
  | write (p : String)
  | read (p : String)
  | stat (p : String)
  | unlink (p : String)
  | readdir
deriving DecidableEq

namespace FileManager

/-- Full outcome of createFile: result, filesystem state afterwards, and
the trace of filesystem calls performed. -/
structure CreateOut where
  result : FMResult CreateResult
  fs : FS
  trace : List FsOp
deriving DecidableEq

/-- Embeds FileManager.createFile (fileManager.js lines 21-54): validate,
probe existence with fs.access (already present, meaning the probe does not
fail with ENOENT, yields the already-exists error), then write and return
filename, path, and size content.length. -/
def createFile (baseDir : String) (fs : FS) (filename content : String) :
    CreateOut :=
  if !(isValidFilename filename) then
    ⟨.err .invalidName, fs, []⟩
  else
    let filePath := pathJoin baseDir filename
    match fsLookup fs filename with
    | some _ => ⟨.err .alreadyExists, fs, [.access filePath]⟩
    | none =>
      ⟨.ok ⟨filename, filePath, jsLength content⟩,
        fsWrite fs filename content,
        [.access filePath, .write filePath]⟩

/-- Full outcome of readFile: result and trace (the state is unchanged). -/
structure ReadOut where
  result : FMResult ReadResult
  trace : List FsOp
deriving DecidableEq

/-- Embeds FileManager.readFile (fileManager.js lines 56-83). The content
read and the stat are two separate calls, so the function takes the
filesystem state observed by each: fs1 at fs.readFile, fs2 at fs.stat. An
ENOENT from either call is caught by the surrounding catch, which maps any
ENOENT to the typed not-found error. -/
def readFile (baseDir : String) (fs1 fs2 : FS) (filename : String) :
    ReadOut :=
  if !(isValidFilename filename) then
    ⟨.err .invalidName, []⟩
  else
    let filePath := pathJoin baseDir filename
    match fsLookup fs1 filename with
    | none => ⟨.err .notFound, [.read filePath]⟩
    | some content =>
      match fsLookup fs2 filename with
      | none => ⟨.err .notFound, [.read filePath, .stat filePath]⟩
      | some c2 =>
        ⟨.ok ⟨filename, content, statSize c2⟩,
          [.read filePath, .stat filePath]⟩

/-- Full outcome of deleteFile: result, state afterwards, and trace. -/
structure DeleteOut where
  result : FMResult DeleteResult
  fs : FS
  trace : List FsOp
deriving DecidableEq

/-- Embeds FileManager.deleteFile (fileManager.js lines 85-115): validate,
probe existence with fs.access (ENOENT becomes the typed not-found error),
then unlink. -/
def deleteFile (baseDir : String) (fs : FS) (filename : String) :
    DeleteOut :=
  if !(isValidFilename filename) then
    ⟨.err .invalidName, fs, []⟩
  else
    let filePath := pathJoin baseDir filename
    match fsLookup fs filename with
    | none => ⟨.err .notFound, fs, [.access filePath]⟩
    | some _ =>
      ⟨.ok ⟨filename, true⟩, fsErase fs filename,
        [.access filePath, .unlink filePath]⟩

/-- Embeds FileManager.listFiles (fileManager.js lines 117-139): readdir
then one fs.stat per entry, assembled with Promise.all, which preserves
enumeration order; on a fixed snapshot every stat succeeds. -/
def listFiles (fs : FS) : List FileEntry :=
  fs.map mkEntry

end FileManager

namespace FileManagerCallback

/-- Embeds FileManagerCallback.createFile (week3_async_patterns_evolution.js
lines 27-63). Identical logic to the canonical module; the result is the
value passed to the callback together with the filesystem state after. -/
def createFile (baseDir : String) (fs : FS) (filename content : String) :
    FMResult CreateResult × FS :=
  if !(isValidFilename filename) then (.err .invalidName, fs)
  else
    let filePath := pathJoin baseDir filename
    match fsLookup fs filename with
    | some _ => (.err .alreadyExists, fs)
    | none =>
      (.ok ⟨filename, filePath, jsLength content⟩, fsWrite fs filename content)

/-- Embeds FileManagerCallback.readFile (lines 65-100). fs1 is the state
observed by fs.readFile, fs2 the state observed by fs.stat. An ENOENT from
fs.readFile is converted to the typed not-found error, but an error from
fs.stat is passed to the callback unconverted (lines 85-89): a file deleted
between the two calls surfaces as the raw ENOENT error, not as the typed
not-found error. -/
def readFile (baseDir : String) (fs1 fs2 : FS) (filename : String) :
    FMResult ReadResult :=
  if !(isValidFilename filename) then .err .invalidName
  else
    match fsLookup fs1 filename with
    | none => .err .notFound
    | some content =>
      match fsLookup fs2 filename with
      | none => .err (.rawFs "ENOENT")
      | some c2 => .ok ⟨filename, content, statSize c2⟩

/-- Embeds FileManagerCallback.deleteFile (lines 102-135): same logic as
the canonical module. -/
def deleteFile (baseDir : String) (fs : FS) (filename : String) :
    FMResult DeleteResult × FS :=
  if !(isValidFilename filename) then (.err .invalidName, fs)
  else
    match fsLookup fs filename with
    | none => (.err .notFound, fs)
    | some _ => (.ok ⟨filename, true⟩, fsErase fs filename)

/-- Operational model of the body of FileManagerCallback.listFiles (lines
137-176) after the readdir. The schedule lists, in completion order, the
index of each entry whose fs.stat callback fires; each firing pushes its
record and increments the completed counter, and the outer callback is
invoked (with the records in completion order) only inside a stat callback,
when the counter reaches the number of entries. none means the outer
callback is never invoked. An index with no entry is skipped (it cannot
occur under a real schedule). -/
def listRun (fs : FS) : List Nat → Nat → List FileEntry → Option (List FileEntry)
  | [], _, _ => none
  | i :: rest, completed, acc =>
    match fs.get? i with
    | none => listRun fs rest completed acc
    | some e =>
      if completed + 1 = fs.length then some (acc ++ [mkEntry e])
      else listRun fs rest (completed + 1) (acc ++ [mkEntry e])

/-- FileManagerCallback.listFiles under an arbitrary stat completion
schedule; on a fixed snapshot every stat succeeds. -/
def listFilesSched (fs : FS) (sched : List Nat) : Option (List FileEntry) :=
  listRun fs sched 0 []

/-- FileManagerCallback.listFiles under the sequential schedule (stat
callbacks fire in enumeration order). -/
def listFiles (fs : FS) : Option (List FileEntry) :=
  listFilesSched fs (List.range fs.length)

end FileManagerCallback

namespace FileManagerPromise

/-- Embeds FileManagerPromise.createFile (lines 213-248): the executor runs
exactly the callback-version logic, rejecting or resolving with the same
values. -/
def createFile (baseDir : String) (fs : FS) (filename content : String) :
    FMResult CreateResult × FS :=
  if !(isValidFilename filename) then (.err .invalidName, fs)
  else
    let filePath := pathJoin baseDir filename
    match fsLookup fs filename with
    | some _ => (.err .alreadyExists, fs)
    | none =>
      (.ok ⟨filename, filePath, jsLength content⟩, fsWrite fs filename content)

/-- Embeds FileManagerPromise.readFile (lines 250-287): as in the callback
version, an error from fs.stat is rejected unconverted (lines 271-275), so
a file deleted between the two calls surfaces as the raw ENOENT error. -/
def readFile (baseDir : String) (fs1 fs2 : FS) (filename : String) :
    FMResult ReadResult :=
  if !(isValidFilename filename) then .err .invalidName
  else
    match fsLookup fs1 filename with
    | none => .err .notFound
    | some content =>
      match fsLookup fs2 filename with
      | none => .err (.rawFs "ENOENT")
      | some c2 => .ok ⟨filename, content, statSize c2⟩

/-- Embeds FileManagerPromise.deleteFile (lines 289-323). -/
def deleteFile (baseDir : String) (fs : FS) (filename : String) :
    FMResult DeleteResult × FS :=
  if !(isValidFilename filename) then (.err .invalidName, fs)
  else
    match fsLookup fs filename with
    | none => (.err .notFound, fs)
    | some _ => (.ok ⟨filename, true⟩, fsErase fs filename)

/-- Embeds FileManagerPromise.listFiles (lines 325-360): readdir, one stat
promise per entry, Promise.all. Promise.all keeps the results in input
order regardless of completion order, and on a fixed snapshot every stat
succeeds, so the result is the entries in enumeration order. -/
def listFiles (fs : FS) : List FileEntry :=
  fs.map mkEntry

end FileManagerPromise

namespace FileManagerAsync

/-- Embeds FileManagerAsync.createFile (lines 393-423): same logic as the
other two variants. -/
def createFile (baseDir : String) (fs : FS) (filename content : String) :
    FMResult CreateResult × FS :=
  if !(isValidFilename filename) then (.err .invalidName, fs)
  else
    let filePath := pathJoin baseDir filename
    match fsLookup fs filename with
    | some _ => (.err .alreadyExists, fs)
    | none =>
      (.ok ⟨filename, filePath, jsLength content⟩, fsWrite fs filename content)

/-- Embeds FileManagerAsync.readFile (lines 425-452). Both awaited calls sit
inside one try whose catch maps any ENOENT to the typed not-found error, so
here a file deleted between the two calls surfaces as not-found, unlike in
the callback and promise variants. -/
def readFile (baseDir : String) (fs1 fs2 : FS) (filename : String) :
    FMResult ReadResult :=
  if !(isValidFilename filename) then .err .invalidName
  else
    match fsLookup fs1 filename with
    | none => .err .notFound
    | some content =>
      match fsLookup fs2 filename with
      | none => .err .notFound
      | some c2 => .ok ⟨filename, content, statSize c2⟩

/-- Embeds FileManagerAsync.deleteFile (lines 454-483). -/
def deleteFile (baseDir : String) (fs : FS) (filename : String) :
    FMResult DeleteResult × FS :=
  if !(isValidFilename filename) then (.err .invalidName, fs)
  else
    match fsLookup fs filename with
    | none => (.err .notFound, fs)
    | some _ => (.ok ⟨filename, true⟩, fsErase fs filename)

/-- Embeds FileManagerAsync.listFiles (lines 485-507): readdir then
Promise.all of the per-entry stats, so enumeration order is kept. -/
def listFiles (fs : FS) : List FileEntry :=
  fs.map mkEntry

end FileManagerAsync

/-- Parsed JSON body of a POST /api/files request: each field is absent or
a string. -/
structure JsonBody where
  filename : Option String
  content : Option String
deriving DecidableEq

/-- JavaScript truthiness of a possibly-absent string field: absent
(undefined) and the empty string are falsy. -/
def jsTruthy : Option String → Bool
  | none => false
  | some s => !(s == "")

/-- HTTP response as far as the claims observe it: status code and the
error message of the body, if any. -/
structure HttpResponse where
  status : Nat
  message : Option String
deriving DecidableEq

/-- Embeds handleError of server.js (lines 32-45): the response status is
chosen by exact match on the error message, every unrecognized message
falling through to 500. -/
def handleError (errorMessage : String) : HttpResponse :=
  ⟨if errorMessage == "File not found" then 404
    else if errorMessage == "Invalid filename" then 400
    else if errorMessage == "File already exists" then 409
    else if errorMessage == "Invalid JSON" then 400
    else 500,
    some errorMessage⟩

/-- Message string of each module failure kind, as carried by the thrown
Error object. A raw filesystem error carries its own message, which is none
of the typed messages (for ENOENT it begins with the code, never equal to
the typed strings matched by handleError). -/
def fmErrorMessage : FMError → String
  | .invalidName => "Invalid filename"
  | .alreadyExists => "File already exists"
  | .notFound => "File not found"
  | .rawFs code => code

/-- Embeds the POST /api/files branch of the server request handler
(server.js lines 58-66) over the canonical FileManager: if either body
field is falsy the handler throws the required-fields error, which
handleError turns into a response; otherwise createFile runs and a success
answers 201. -/
def handlePostFiles (baseDir : String) (fs : FS) (body : JsonBody) :
    HttpResponse × FS :=
  if !(jsTruthy body.filename) || !(jsTruthy body.content) then
    (handleError "Filename and content are required", fs)
  else
    let out := FileManager.createFile baseDir fs (body.filename.getD "")
      (body.content.getD "")
    match out.result with
    | .ok _ => (⟨201, none⟩, out.fs)
    | .err e => (handleError (fmErrorMessage e), out.fs)

/-- Sum of a map whose values are all one is the length of the list. -/
theorem sum_map_ones {α : Type} (f : α → Nat) (l : List α)
    (h : ∀ c ∈ l, f c = 1) : (l.map f).sum = l.length := by
  induction l with
  | nil => rfl
  | cons a t ih =>
    have ha := h a (List.mem_cons_self a t)
    have ht := ih (fun c hc => h c (List.mem_cons_of_mem a hc))
    simp [ha, ht]
    omega

/-- Every character of the validator class lies in the basic multilingual
plane, so it is a single UTF-16 code unit. -/
theorem utf16Units_eq_one (c : Char) (h : isFilenameChar c = true) :
    utf16Units c = 1 := by
  have hb : c.toNat < 65536 := by
    simp only [isFilenameChar, Bool.or_eq_true, Bool.and_eq_true,
      decide_eq_true_iff, beq_iff_eq] at h
    rcases h with (((((⟨_, h2⟩ | ⟨_, h2⟩) | ⟨_, h2⟩) | h) | h) | h)
    · omega
    · omega
    · omega
    · subst h; decide
    · subst h; decide
    · subst h; decide
  simp [utf16Units, hb]

/-- On strings whose characters all pass the class test, the JS length is
the number of characters. -/
theorem jsLength_eq_length (s : String)
    (h : ∀ c ∈ s.data, isFilenameChar c = true) :
    jsLength s = s.data.length :=
  sum_map_ones utf16Units s.data (fun c hc => utf16Units_eq_one c (h c hc))

/-- The Boolean prefix test agrees with the prefix relation. -/
theorem listPrefixTest_iff (p l : List Char) :
    listPrefixTest p l = true ↔ p <+: l := by
  induction p generalizing l with
  | nil => simp [listPrefixTest, List.nil_prefix]
  | cons a xs ih =>
    cases l with
    | nil => simp [listPrefixTest]
    | cons b ys =>
      simp [listPrefixTest, Bool.and_eq_true, beq_iff_eq, ih,
        List.cons_prefix_cons]

/-- The Boolean substring test agrees with the infix relation. -/
theorem listSubTest_iff (p l : List Char) :
    listSubTest p l = true ↔ p <:+: l := by
  induction l with
  | nil =>
    cases p with
    | nil => simp [listSubTest, listPrefixTest]
    | cons a xs => simp [listSubTest, listPrefixTest]
  | cons b ys ih =>
    simp [listSubTest, Bool.or_eq_true, listPrefixTest_iff, ih,
      List.infix_cons_iff]

/-- A single element is an infix exactly when it is a member. -/
theorem singleton_infix_mem (a : Char) (l : List Char) :
    [a] <:+: l ↔ a ∈ l := by
  constructor
  · intro h
    exact List.singleton_sublist.mp h.sublist
  · intro h
    obtain ⟨s, t, rfl⟩ := List.append_of_mem h
    exact ⟨s, t, by simp⟩

/-- Reading back a name just written yields the written content. -/
theorem fsLookup_fsWrite (fs : FS) (n c : String) :
    fsLookup (fsWrite fs n c) n = some c := by
  induction fs with
  | nil => simp [fsWrite, fsLookup]
  | cons e rest ih =>
    by_cases h : e.1 = n
    · simp [fsWrite, fsLookup, h]
    · simp [fsWrite, fsLookup, h, ih]

/-- A name just erased is no longer found. -/
theorem fsLookup_fsErase (fs : FS) (n : String) :
    fsLookup (fsErase fs n) n = none := by
  induction fs with
  | nil => simp [fsErase, fsLookup]
  | cons e rest ih =>
    by_cases h : e.1 = n
    · simp [fsErase, h, ih]
    · simp [fsErase, fsLookup, h, ih]

/-- A leading dot is what the dot-prefix test detects. -/
theorem listPrefixTest_dot (l : List Char) :
    listPrefixTest ['.'] l = true ↔ l.head? = some '.' := by
  cases l with
  | nil => simp [listPrefixTest]
  | cons b ys =>
    simp only [listPrefixTest, Bool.and_eq_true, beq_iff_eq, List.head?_cons,
      Option.some.injEq, and_true]
    exact eq_comm

/-- A non-empty string has positive JS length. -/
theorem jsLength_pos (s : String) (h : s.data ≠ []) : 0 < jsLength s := by
  unfold jsLength
  cases hd : s.data with
  | nil => exact absurd hd h
  | cons a t =>
    have : 1 ≤ utf16Units a := by unfold utf16Units; split <;> omega
    simp [hd]
    omega

/-- Restatement of the validator as one proposition over the characters:
accepted iff non-empty, at most 255 characters, only characters of the
class [A-Za-z0-9-_.], no ".." substring, no leading dot, no slash and no
backslash. -/
theorem isValidFilename_iff_chars (s : String) :
    isValidFilename s = true ↔
      (s.data ≠ [] ∧ s.data.length ≤ 255 ∧
        (∀ c ∈ s.data, isFilenameChar c = true) ∧
        ¬ (['.', '.'] <:+: s.data) ∧
        s.data.head? ≠ some '.' ∧ '/' ∉ s.data ∧ '\\' ∉ s.data) := by
  constructor
  · intro h
    simp only [isValidFilename, Bool.and_eq_true, Bool.not_eq_true',
      decide_eq_true_iff] at h
    obtain ⟨⟨⟨⟨⟨⟨hre, hpos⟩, hle⟩, hdd⟩, hdot⟩, hsl⟩, hbs⟩ := h
    have hre2 : s.data ≠ [] ∧ ∀ c ∈ s.data, isFilenameChar c = true := by
      unfold regexTest at hre
      rw [Bool.and_eq_true] at hre
      refine ⟨?_, List.all_eq_true.mp hre.2⟩
      intro hnil
      have := hre.1
      rw [hnil] at this
      simp at this
    have hlen : s.data.length ≤ 255 := by
      rw [jsLength_eq_length s hre2.2] at hle
      exact hle
    have hdd2 : listSubTest ['.', '.'] s.data = false := hdd
    have hdot2 : listPrefixTest ['.'] s.data = false := hdot
    have hsl2 : listSubTest ['/'] s.data = false := hsl
    have hbs2 : listSubTest ['\\'] s.data = false := hbs
    refine ⟨hre2.1, hlen, hre2.2, ?_, ?_, ?_, ?_⟩
    · intro contra
      rw [(listSubTest_iff _ _).mpr contra] at hdd2
      exact Bool.true_eq_false.mp hdd2
    · intro contra
      rw [(listPrefixTest_dot _).mpr contra] at hdot2
      exact Bool.true_eq_false.mp hdot2
    · intro contra
      rw [(listSubTest_iff _ _).mpr ((singleton_infix_mem _ _).mpr contra)] at hsl2
      exact Bool.true_eq_false.mp hsl2
    · intro contra
      rw [(listSubTest_iff _ _).mpr ((singleton_infix_mem _ _).mpr contra)] at hbs2
      exact Bool.true_eq_false.mp hbs2
  · intro h
    obtain ⟨hne, hlen, hcl, hdd, hdot, hsl, hbs⟩ := h
    simp only [isValidFilename, Bool.and_eq_true, Bool.not_eq_true',
      decide_eq_true_iff]
    refine ⟨⟨⟨⟨⟨⟨?_, ?_⟩, ?_⟩, ?_⟩, ?_⟩, ?_⟩, ?_⟩
    · unfold regexTest
      rw [Bool.and_eq_true]
      refine ⟨?_, List.all_eq_true.mpr hcl⟩
      cases hd : s.data with
      | nil => exact absurd hd hne
      | cons a t => rfl
    · exact jsLength_pos s hne
    · rw [jsLength_eq_length s hcl]
      exact hlen
    · show listSubTest ['.', '.'] s.data = false
      rw [Bool.eq_false_iff]
      intro contra
      exact hdd ((listSubTest_iff _ _).mp contra)
    · show listPrefixTest ['.'] s.data = false
      rw [Bool.eq_false_iff]
      intro contra
      exact hdot ((listPrefixTest_dot _).mp contra)
    · show listSubTest ['/'] s.data = false
      rw [Bool.eq_false_iff]
      intro contra
      exact hsl ((singleton_infix_mem _ _).mp ((listSubTest_iff _ _).mp contra))
    · show listSubTest ['\\'] s.data = false
      rw [Bool.eq_false_iff]
      intro contra
      exact hbs ((singleton_infix_mem _ _).mp ((listSubTest_iff _ _).mp contra))

/-- C2: the filename validator is a total function that accepts a string
if and only if it is non-empty, at most 255 characters, consists only of
characters of the class [A-Za-z0-9-_.], does not contain the substring
"..", does not start with ".", and contains no slash and no backslash; so
every string with a slash, a backslash, a ".." substring, a leading dot,
and every empty or over-255-character string, is rejected. -/
theorem isValidFilename_spec (s : String) :
    isValidFilename s = true ↔
      (s.data ≠ [] ∧ s.data.length ≤ 255 ∧
        (∀ c ∈ s.data,
          (97 ≤ c.toNat ∧ c.toNat ≤ 122) ∨ (65 ≤ c.toNat ∧ c.toNat ≤ 90) ∨
            (48 ≤ c.toNat ∧ c.toNat ≤ 57) ∨ c = '-' ∨ c = '_' ∨ c = '.') ∧
        ¬ (['.', '.'] <:+: s.data) ∧
        s.data.head? ≠ some '.' ∧ '/' ∉ s.data ∧ '\\' ∉ s.data) := by
  have hchar : ∀ c : Char, isFilenameChar c = true ↔
      ((97 ≤ c.toNat ∧ c.toNat ≤ 122) ∨ (65 ≤ c.toNat ∧ c.toNat ≤ 90) ∨
        (48 ≤ c.toNat ∧ c.toNat ≤ 57) ∨ c = '-' ∨ c = '_' ∨ c = '.') := by
    intro c
    simp only [isFilenameChar, Bool.or_eq_true, Bool.and_eq_true,
      decide_eq_true_iff, beq_iff_eq]
    tauto
  rw [isValidFilename_iff_chars]
  constructor
  · intro ⟨h1, h2, h3, h4, h5, h6, h7⟩
    exact ⟨h1, h2, fun c hc => (hchar c).mp (h3 c hc), h4, h5, h6, h7⟩
  · intro ⟨h1, h2, h3, h4, h5, h6, h7⟩
    exact ⟨h1, h2, fun c hc => (hchar c).mpr (h3 c hc), h4, h5, h6, h7⟩

/-- Unfolded form of a successful createFile on a fresh name. -/
theorem createFile_fresh (baseDir : String) (fs : FS) (n content : String)
    (hv : isValidFilename n = true) (hnew : fsLookup fs n = none) :
    FileManager.createFile baseDir fs n content =
      ⟨.ok ⟨n, pathJoin baseDir n, jsLength content⟩, fsWrite fs n content,
        [.access (pathJoin baseDir n), .write (pathJoin baseDir n)]⟩ := by
  unfold FileManager.createFile
  rw [hv, hnew]
  rfl

/-- C3: for a valid filename not yet present, create followed by read
succeeds, returns the content unchanged, and the size of the read result
is the byte length of the content. -/
theorem create_read_roundtrip (baseDir : String) (fs : FS) (n content : String)
    (hv : isValidFilename n = true) (hnew : fsLookup fs n = none) :
    (FileManager.createFile baseDir fs n content).result =
      .ok ⟨n, pathJoin baseDir n, jsLength content⟩ ∧
    (FileManager.readFile baseDir (FileManager.createFile baseDir fs n content).fs
        (FileManager.createFile baseDir fs n content).fs n).result =
      .ok ⟨n, content, utf8Len content⟩ := by
  rw [createFile_fresh baseDir fs n content hv hnew]
  refine ⟨rfl, ?_⟩
  show (FileManager.readFile baseDir (fsWrite fs n content)
    (fsWrite fs n content) n).result = .ok ⟨n, content, utf8Len content⟩
  unfold FileManager.readFile
  rw [hv, fsLookup_fsWrite]
  rfl

/-- Witness for C3 at filename a.txt, content hello, empty directory. -/
theorem create_read_roundtrip_witness :
    isValidFilename "a.txt" = true ∧ fsLookup [] "a.txt" = none ∧
    ((FileManager.createFile "files" [] "a.txt" "hello").result =
        .ok ⟨"a.txt", pathJoin "files" "a.txt", jsLength "hello"⟩ ∧
      (FileManager.readFile "files"
          (FileManager.createFile "files" [] "a.txt" "hello").fs
          (FileManager.createFile "files" [] "a.txt" "hello").fs "a.txt").result =
        .ok ⟨"a.txt", "hello", utf8Len "hello"⟩) :=
  ⟨by decide, rfl, create_read_roundtrip "files" [] "a.txt" "hello" (by decide) rfl⟩

/-- C4 (amended): the size field of a successful create is the JS string
length of the content, its number of UTF-16 code units; when the content is
ASCII-only this coincides with the UTF-8 byte length. -/
theorem create_size_utf16 (baseDir : String) (fs : FS) (n content : String)
    (hv : isValidFilename n = true) (hnew : fsLookup fs n = none) :
    (FileManager.createFile baseDir fs n content).result =
      .ok ⟨n, pathJoin baseDir n, jsLength content⟩ ∧
    ((∀ c ∈ content.data, c.toNat < 128) → jsLength content = utf8Len content) := by
  refine ⟨by rw [createFile_fresh baseDir fs n content hv hnew], ?_⟩
  intro hascii
  have h1 : ∀ c ∈ content.data, utf16Units c = 1 := by
    intro c hc
    have hb := hascii c hc
    have hb2 : c.toNat < 65536 := by omega
    simp [utf16Units, hb2]
  have h2 : ∀ c ∈ content.data, charUtf8Size c = 1 := by
    intro c hc
    have hb := hascii c hc
    simp [charUtf8Size, hb]
  unfold jsLength utf8Len
  rw [sum_map_ones _ _ h1, sum_map_ones _ _ h2]

/-- Witness for the amended C4 at ASCII content hello. -/
theorem create_size_utf16_witness :
    isValidFilename "a.txt" = true ∧ fsLookup [] "a.txt" = none ∧
    ((FileManager.createFile "files" [] "a.txt" "hello").result =
        .ok ⟨"a.txt", pathJoin "files" "a.txt", jsLength "hello"⟩ ∧
      ((∀ c ∈ "hello".data, c.toNat < 128) →
        jsLength "hello" = utf8Len "hello")) :=
  ⟨by decide, rfl, create_size_utf16 "files" [] "a.txt" "hello" (by decide) rfl⟩

/-- C4 (counterexample): creating a.txt with the one-character content
"é" reports size 1, while the UTF-8 encoding of that content, which is
what gets written, is 2 bytes: the reported size is not the byte length. -/
theorem create_size_not_utf8_bytes :
    (FileManager.createFile "files" [] "a.txt" "é").result =
      .ok ⟨"a.txt", "files/a.txt", 1⟩ ∧
    utf8Len "é" = 2 ∧
    (FileManager.createFile "files" [] "a.txt" "é").result ≠
      .ok ⟨"a.txt", "files/a.txt", utf8Len "é"⟩ :=
  ⟨by decide, by decide, by decide⟩

/-- C6: an invalid filename makes create, read, and delete fail with the
typed invalid-name error before any filesystem call: the recorded trace is
empty and the state is returned unchanged, so no write happens anywhere,
inside or outside the base directory. -/
theorem invalid_name_rejected_before_fs (baseDir : String) (fs fs2 : FS)
    (n content : String) (hinv : isValidFilename n = false) :
    FileManager.createFile baseDir fs n content = ⟨.err .invalidName, fs, []⟩ ∧
    FileManager.readFile baseDir fs fs2 n = ⟨.err .invalidName, []⟩ ∧
    FileManager.deleteFile baseDir fs n = ⟨.err .invalidName, fs, []⟩ := by
  unfold FileManager.createFile FileManager.readFile FileManager.deleteFile
  rw [hinv]
  exact ⟨rfl, rfl, rfl⟩

/-- Witness for C6 at the traversal attempt of the spec scenario. -/
theorem invalid_name_rejected_before_fs_witness :
    isValidFilename "../etc/passwd" = false ∧
    (FileManager.createFile "files" [] "../etc/passwd" "x" =
        ⟨.err .invalidName, [], []⟩ ∧
      FileManager.readFile "files" [] [] "../etc/passwd" =
        ⟨.err .invalidName, []⟩ ∧
      FileManager.deleteFile "files" [] "../etc/passwd" =
        ⟨.err .invalidName, [], []⟩) :=
  ⟨by decide,
    invalid_name_rejected_before_fs "files" [] [] "../etc/passwd" "x" (by decide)⟩

/-- C9 (behavior at the failing input): a POST /api/files whose body has no
content field is answered with status 500, not 400, with the message
"Filename and content are required": handleError matches no such message
and falls through to 500. This holds on every filesystem state. -/
theorem post_missing_content_500 (baseDir : String) (fs : FS) :
    handlePostFiles baseDir fs ⟨some "a.txt", none⟩ =
      (⟨500, some "Filename and content are required"⟩, fs) := rfl

/-- C10: on an empty base directory the callback variant's listFiles never
invokes its callback under any stat completion schedule, because the
completion check runs only inside a per-entry stat callback and no stat is
issued; the promise and async variants return the empty list. -/
theorem callback_list_empty_no_callback :
    (∀ sched : List Nat,
      FileManagerCallback.listFilesSched [] sched = none) ∧
    FileManagerCallback.listFiles [] = none ∧
    FileManagerPromise.listFiles [] = [] ∧
    FileManagerAsync.listFiles [] = [] := by
  refine ⟨?_, rfl, rfl, rfl⟩
  intro sched
  unfold FileManagerCallback.listFilesSched
  induction sched with
  | nil => rfl
  | cons i rest ih => simpa [FileManagerCallback.listRun] using ih

/-- C5: create on a state holding the file fails with the already-exists
error and leaves the state, hence the stored content, unchanged, so every
repetition behaves identically; read and delete on a state without the
file fail with the not-found error; and after a successful create on such
a state, delete succeeds exactly once and a second delete fails with the
not-found error. -/
theorem create_delete_error_contract (baseDir : String) (fsA fsB : FS)
    (n content c0 : String) (hv : isValidFilename n = true)
    (hex : fsLookup fsA n = some c0) (habs : fsLookup fsB n = none) :
    ((FileManager.createFile baseDir fsA n content).result =
        .err .alreadyExists ∧
      (FileManager.createFile baseDir fsA n content).fs = fsA ∧
      fsLookup (FileManager.createFile baseDir fsA n content).fs n = some c0) ∧
    ((FileManager.readFile baseDir fsB fsB n).result = .err .notFound ∧
      (FileManager.deleteFile baseDir fsB n).result = .err .notFound) ∧
    ((FileManager.deleteFile baseDir
        (FileManager.createFile baseDir fsB n content).fs n).result =
      .ok ⟨n, true⟩ ∧
      (FileManager.deleteFile baseDir
        (FileManager.deleteFile baseDir
          (FileManager.createFile baseDir fsB n content).fs n).fs n).result =
        .err .notFound) := by
  refine ⟨?_, ?_, ?_⟩
  · unfold FileManager.createFile
    rw [hv, hex]
    exact ⟨rfl, rfl, hex⟩
  · unfold FileManager.readFile FileManager.deleteFile
    rw [hv, habs]
    exact ⟨rfl, rfl⟩
  · have h1 : (FileManager.createFile baseDir fsB n content).fs =
        fsWrite fsB n content := by
      rw [createFile_fresh baseDir fsB n content hv habs]
    have hdel : FileManager.deleteFile baseDir (fsWrite fsB n content) n =
        ⟨.ok ⟨n, true⟩, fsErase (fsWrite fsB n content) n,
          [.access (pathJoin baseDir n), .unlink (pathJoin baseDir n)]⟩ := by
      unfold FileManager.deleteFile
      rw [hv, fsLookup_fsWrite]
      rfl
    have hdel2 : (FileManager.deleteFile baseDir
        (fsErase (fsWrite fsB n content) n) n).result = .err .notFound := by
      unfold FileManager.deleteFile
      rw [hv, fsLookup_fsErase]
      rfl
    rw [h1, hdel]
    exact ⟨rfl, hdel2⟩

/-- Witness for C5: a.txt exists in fsA with content x, is absent from the
empty fsB. -/
theorem create_delete_error_contract_witness :
    isValidFilename "a.txt" = true ∧
    fsLookup [("a.txt", "x")] "a.txt" = some "x" ∧
    fsLookup [] "a.txt" = none ∧
    (((FileManager.createFile "files" [("a.txt", "x")] "a.txt" "y").result =
        .err .alreadyExists ∧
      (FileManager.createFile "files" [("a.txt", "x")] "a.txt" "y").fs =
        [("a.txt", "x")] ∧
      fsLookup (FileManager.createFile "files" [("a.txt", "x")] "a.txt" "y").fs
        "a.txt" = some "x") ∧
    ((FileManager.readFile "files" [] [] "a.txt").result = .err .notFound ∧
      (FileManager.deleteFile "files" [] "a.txt").result = .err .notFound) ∧
    ((FileManager.deleteFile "files"
        (FileManager.createFile "files" [] "a.txt" "y").fs "a.txt").result =
      .ok ⟨"a.txt", true⟩ ∧
      (FileManager.deleteFile "files"
        (FileManager.deleteFile "files"
          (FileManager.createFile "files" [] "a.txt" "y").fs "a.txt").fs
        "a.txt").result = .err .notFound)) :=
  ⟨by decide, by decide, rfl,
    create_delete_error_contract "files" [("a.txt", "x")] [] "a.txt" "y" "x"
      (by decide) (by decide) rfl⟩

/-- C7 (amended): when the file disappears between the content read and
the stat, the canonical FileManager and the async variant surface the
typed not-found error — the same failure kind as a direct miss — while the
callback and promise variants pass the raw ENOENT stat error through
unconverted. -/
theorem read_stat_race (baseDir : String) (fs1 fs2 : FS) (n c : String)
    (hv : isValidFilename n = true) (h1 : fsLookup fs1 n = some c)
    (h2 : fsLookup fs2 n = none) :
    (FileManager.readFile baseDir fs1 fs2 n).result = .err .notFound ∧
    FileManagerAsync.readFile baseDir fs1 fs2 n = .err .notFound ∧
    (FileManager.readFile baseDir fs2 fs2 n).result = .err .notFound ∧
    FileManagerCallback.readFile baseDir fs1 fs2 n = .err (.rawFs "ENOENT") ∧
    FileManagerPromise.readFile baseDir fs1 fs2 n = .err (.rawFs "ENOENT") := by
  unfold FileManager.readFile FileManagerAsync.readFile
    FileManagerCallback.readFile FileManagerPromise.readFile
  rw [hv, h1, h2]
  exact ⟨rfl, rfl, rfl, rfl, rfl⟩

/-- Witness for the amended C7: a.txt present at the read, gone at the
stat. -/
theorem read_stat_race_witness :
    isValidFilename "a.txt" = true ∧
    fsLookup [("a.txt", "x")] "a.txt" = some "x" ∧
    fsLookup [] "a.txt" = none ∧
    ((FileManager.readFile "files" [("a.txt", "x")] [] "a.txt").result =
        .err .notFound ∧
      FileManagerAsync.readFile "files" [("a.txt", "x")] [] "a.txt" =
        .err .notFound ∧
      (FileManager.readFile "files" [] [] "a.txt").result = .err .notFound ∧
      FileManagerCallback.readFile "files" [("a.txt", "x")] [] "a.txt" =
        .err (.rawFs "ENOENT") ∧
      FileManagerPromise.readFile "files" [("a.txt", "x")] [] "a.txt" =
        .err (.rawFs "ENOENT")) :=
  ⟨by decide, by decide, rfl,
    read_stat_race "files" [("a.txt", "x")] [] "a.txt" "x" (by decide)
      (by decide) rfl⟩

/-- C7 (counterexample): with a.txt present at the content read but
deleted before the stat, the callback variant surfaces the raw ENOENT
error and not the typed not-found kind, while the async variant surfaces
not-found: the claimed behavior does not hold in every variant. -/
theorem read_stat_race_callback_raw :
    FileManagerCallback.readFile "files" [("a.txt", "x")] [] "a.txt" =
      .err (.rawFs "ENOENT") ∧
    FileManagerCallback.readFile "files" [("a.txt", "x")] [] "a.txt" ≠
      .err .notFound ∧
    FileManagerAsync.readFile "files" [("a.txt", "x")] [] "a.txt" =
      .err .notFound := by
  refine ⟨by decide, by decide, by decide⟩

/-- Under a full schedule (every index in range and as many stat firings
as entries) the callback list loop hits the completion check at the last
firing and delivers the records in completion order. -/
theorem listRun_complete (fs : FS) :
    ∀ (sched : List Nat) (completed : Nat) (acc : List FileEntry),
      (∀ i ∈ sched, i < fs.length) →
      completed + sched.length = fs.length →
      sched ≠ [] →
      FileManagerCallback.listRun fs sched completed acc =
        some (acc ++ sched.filterMap (fun i => (fs.get? i).map mkEntry)) := by
  intro sched
  induction sched with
  | nil => intro completed acc _ _ hne; exact absurd rfl hne
  | cons i rest ih =>
    intro completed acc hmem hlen _
    have hi : i < fs.length := hmem i (List.mem_cons_self i rest)
    obtain ⟨e, he⟩ : ∃ e, fs.get? i = some e := by
      cases hg : fs.get? i with
      | none => exact absurd (List.get?_eq_none.mp hg) (Nat.not_le.mpr hi)
      | some e => exact ⟨e, rfl⟩
    have he2 : fs[i]? = some e := by
      rw [← List.get?_eq_getElem?]
      exact he
    unfold FileManagerCallback.listRun
    rw [he]
    dsimp only
    rw [List.length_cons] at hlen
    by_cases hrest : rest = []
    · subst hrest
      rw [List.length_nil] at hlen
      have hfin : completed + 1 = fs.length := by omega
      rw [if_pos hfin]
      simp [List.filterMap_cons, he2]
    · have hrlen : 0 < rest.length := List.length_pos.mpr hrest
      have hne2 : ¬ (completed + 1 = fs.length) := by omega
      rw [if_neg hne2]
      rw [ih (completed + 1) (acc ++ [mkEntry e])
        (fun j hj => hmem j (List.mem_cons_of_mem i hj)) (by omega) hrest]
      simp [List.filterMap_cons, he2]

/-- The sequential schedule selects exactly the entries in enumeration
order. -/
theorem range_filterMap_get (fs : FS) :
    (List.range fs.length).filterMap (fun i => (fs.get? i).map mkEntry) =
      fs.map mkEntry := by
  induction fs with
  | nil => rfl
  | cons e rest ih =>
    have hcomp : ((fun i => ((e :: rest).get? i).map mkEntry) ∘ Nat.succ) =
        fun i => (rest.get? i).map mkEntry := by
      funext i
      simp [List.get?_cons_succ]
    rw [List.length_cons, List.range_succ_eq_map, List.filterMap_cons,
      List.filterMap_map, hcomp, ih]
    rfl

/-- C1 (amended): the three variants agree on create and delete for every
input and state, and on read whenever its two filesystem calls observe the
same state; the promise and async variants agree on list for every
snapshot. The callback variant's list agrees with them only conditionally:
on a nonempty snapshot it returns the same records, in the same order,
precisely when its stat callbacks complete in enumeration order — the
schedule List.range fs.length below, written explicitly because under
other completion schedules the callback variant delivers the records in a
different order, on the empty snapshot it never invokes its callback while
the other two return the empty list, and under a concurrent delete during
read the failure kinds differ. -/
theorem variants_agree (baseDir : String) (fs : FS) (n content : String) :
    FileManagerCallback.createFile baseDir fs n content =
      FileManagerPromise.createFile baseDir fs n content ∧
    FileManagerPromise.createFile baseDir fs n content =
      FileManagerAsync.createFile baseDir fs n content ∧
    FileManagerCallback.readFile baseDir fs fs n =
      FileManagerPromise.readFile baseDir fs fs n ∧
    FileManagerPromise.readFile baseDir fs fs n =
      FileManagerAsync.readFile baseDir fs fs n ∧
    FileManagerCallback.deleteFile baseDir fs n =
      FileManagerPromise.deleteFile baseDir fs n ∧
    FileManagerPromise.deleteFile baseDir fs n =
      FileManagerAsync.deleteFile baseDir fs n ∧
    FileManagerPromise.listFiles fs = FileManagerAsync.listFiles fs ∧
    (fs ≠ [] →
      FileManagerCallback.listFilesSched fs (List.range fs.length) =
        some (FileManagerAsync.listFiles fs)) ∧
    (∀ sched : List Nat, (∀ i ∈ sched, i < fs.length) →
      sched.length = fs.length → fs ≠ [] →
      FileManagerCallback.listFilesSched fs sched =
        some (sched.filterMap (fun i => (fs.get? i).map mkEntry))) := by
  refine ⟨rfl, rfl, rfl, ?_, rfl, rfl, rfl, ?_, ?_⟩
  · unfold FileManagerPromise.readFile FileManagerAsync.readFile
    cases hval : isValidFilename n
    · rfl
    · cases hl : fsLookup fs n
      · rfl
      · rfl
  · intro hne
    have hlp : 0 < fs.length := List.length_pos.mpr hne
    have hrne : List.range fs.length ≠ [] := by
      intro h
      have := List.length_range fs.length
      rw [h] at this
      simp at this
      omega
    unfold FileManagerCallback.listFilesSched
    rw [listRun_complete fs (List.range fs.length) 0 []
      (fun i hi => List.mem_range.mp hi) (by simp) hrne]
    rw [range_filterMap_get]
    rfl
  · intro sched hmem hlen hne
    have hsne : sched ≠ [] := by
      intro h
      rw [h] at hlen
      simp at hlen
      exact hne (List.length_eq_zero.mp hlen.symm)
    unfold FileManagerCallback.listFilesSched
    rw [listRun_complete fs sched 0 [] hmem (by omega) hsne]
    rfl

/-- Witness for the amended C1 at a one-file snapshot, exercising the
enumeration-order schedule conjunct and the general schedule conjunct. -/
theorem variants_agree_witness :
    FileManagerPromise.readFile "files" [("a.txt", "x")] [("a.txt", "x")]
      "a.txt" =
      FileManagerAsync.readFile "files" [("a.txt", "x")] [("a.txt", "x")]
        "a.txt" ∧
    ([("a.txt", "x")] : FS) ≠ [] ∧
    FileManagerCallback.listFilesSched [("a.txt", "x")]
        (List.range ([("a.txt", "x")] : FS).length) =
      some (FileManagerAsync.listFiles [("a.txt", "x")]) ∧
    FileManagerCallback.listFilesSched [("a.txt", "x")] [0] =
      some (([0] : List Nat).filterMap
        (fun i => (([("a.txt", "x")] : FS).get? i).map mkEntry)) :=
  ⟨(variants_agree "files" [("a.txt", "x")] "a.txt" "y").2.2.2.1,
    by decide,
    (variants_agree "files" [("a.txt", "x")] "a.txt" "y").2.2.2.2.2.2.2.1
      (by decide),
    (variants_agree "files" [("a.txt", "x")] "a.txt" "y").2.2.2.2.2.2.2.2
      [0] (by decide) (by decide) (by decide)⟩

/-- C1 (counterexample): on the empty snapshot the callback variant's list
never invokes its callback while the promise and async variants both
return the empty list, so the three variants do not implement identical
behavior for every operation and state. -/
theorem variants_list_empty_differ :
    FileManagerCallback.listFiles [] = none ∧
    FileManagerPromise.listFiles [] = [] ∧
    FileManagerAsync.listFiles [] = [] ∧
    FileManagerCallback.listFiles [] ≠ some (FileManagerAsync.listFiles []) := by
  refine ⟨rfl, rfl, rfl, ?_⟩
  intro h
  exact Option.noConfusion h

/-- C8 (amended): for a fixed snapshot the promise and async variants
return the same sequence on every invocation — the records in enumeration
order, deterministic though not sorted — while the callback variant,
though it completes under every full stat schedule, delivers the records
in stat completion order, which varies with the schedule. -/
theorem list_order_contract (fs : FS) (sched : List Nat)
    (hmem : ∀ i ∈ sched, i < fs.length) (hlen : sched.length = fs.length)
    (hne : fs ≠ []) :
    FileManagerPromise.listFiles fs = FileManagerAsync.listFiles fs ∧
    FileManagerAsync.listFiles fs = fs.map mkEntry ∧
    FileManagerCallback.listFilesSched fs sched =
      some (sched.filterMap (fun i => (fs.get? i).map mkEntry)) := by
  refine ⟨rfl, rfl, ?_⟩
  have hsne : sched ≠ [] := by
    intro h
    rw [h] at hlen
    simp at hlen
    exact hne (List.length_eq_zero.mp hlen.symm)
  unfold FileManagerCallback.listFilesSched
  rw [listRun_complete fs sched 0 [] hmem (by omega) hsne]
  rfl

/-- Witness for the amended C8 at a two-file snapshot with the sequential
schedule. -/
theorem list_order_contract_witness :
    (∀ i ∈ ([0, 1] : List Nat), i < ([("a", ""), ("b", "xy")] : FS).length) ∧
    ([0, 1] : List Nat).length = ([("a", ""), ("b", "xy")] : FS).length ∧
    ([("a", ""), ("b", "xy")] : FS) ≠ [] ∧
    (FileManagerPromise.listFiles [("a", ""), ("b", "xy")] =
        FileManagerAsync.listFiles [("a", ""), ("b", "xy")] ∧
      FileManagerAsync.listFiles [("a", ""), ("b", "xy")] =
        ([("a", ""), ("b", "xy")] : FS).map mkEntry ∧
      FileManagerCallback.listFilesSched [("a", ""), ("b", "xy")] [0, 1] =
        some (([0, 1] : List Nat).filterMap
          (fun i => (([("a", ""), ("b", "xy")] : FS).get? i).map mkEntry))) :=
  ⟨by decide, by decide, by decide,
    list_order_contract [("a", ""), ("b", "xy")] [0, 1] (by decide) (by decide)
      (by decide)⟩

/-- C8 (counterexample): on a fixed two-file snapshot, stat completion
order 0 then 1 and completion order 1 then 0 make the callback variant
return different sequences: its list order is not stable for a fixed
snapshot. -/
theorem list_order_schedule_dependent :
    FileManagerCallback.listFilesSched [("a", ""), ("b", "xy")] [0, 1] =
      some [⟨"a", 0⟩, ⟨"b", 2⟩] ∧
    FileManagerCallback.listFilesSched [("a", ""), ("b", "xy")] [1, 0] =
      some [⟨"b", 2⟩, ⟨"a", 0⟩] ∧
    FileManagerCallback.listFilesSched [("a", ""), ("b", "xy")] [0, 1] ≠
      FileManagerCallback.listFilesSched [("a", ""), ("b", "xy")] [1, 0] := by
  refine ⟨by decide, by decide, by decide⟩
